import Mathlib

/-!
Verification development for the Windows console screen driver
(`console_win.go`) of the tcell terminal UI library.

The Go source is shallowly embedded: pure functions become Lean functions,
stateful methods become explicit state-passing functions on a `CScreen`
record, and calls into the host console API are recorded as an explicit
list of `COp` operations.  Machine integers are modelled as `Nat`/`Int`
with explicit masking where overflow matters.

Types that live in files of the repository that were not provided
(`key.go`, `color.go`, `style.go`, `cellbuffer.go`, `screen.go`) are
modelled from the specification; each such definition carries a doc
comment starting with `Modelled from the spec:`.
-/

set_option maxHeartbeats 1000000

namespace TcellWin

/-! ## Keys, modifiers and events (modelled from the spec / `key.go`) -/

/-- Modelled from the spec: the key value type (`key.go` is not in the
provided sources).  `Key` in Go is an integer type; we model it as an
inductive with one constructor per named key constant used by
`console_win.go`, plus `ch c` for rune-valued keys (such as the
space key `' '` used in `vkKeys`).  Only distinctness of the constants
matters for the claims. -/
inductive Key where
  | nul
  | rune
  | backtab
  | cancel
  | backspace
  | tab
  | clear
  | pause
  | print
  | pgUp
  | pgDn
  | enter
  | end_
  | home
  | left
  | up
  | right
  | down
  | insert
  | delete
  | help
  | escape
  | f1 | f2 | f3 | f4 | f5 | f6 | f7 | f8 | f9 | f10 | f11 | f12
  | f13 | f14 | f15 | f16 | f17 | f18 | f19 | f20 | f21 | f22 | f23 | f24
  | ch (c : Nat)
  deriving DecidableEq, Repr

/-- Modelled from the spec: modifier mask bits (`key.go` is not in the
provided sources).  The exact numeric values follow the usual
`1 << iota` layout; the claims only need the bits to be distinct. -/
def modNone : Nat := 0

/-- Modelled from the spec: the shift modifier bit. -/
def modShift : Nat := 1

/-- Modelled from the spec: the ctrl modifier bit. -/
def modCtrl : Nat := 2

/-- Modelled from the spec: the alt modifier bit. -/
def modAlt : Nat := 4

/-- Modelled from the spec: the meta modifier bit. -/
def modMeta : Nat := 8

/-- Modelled from the spec: typed events produced by the input decoder.
`NewEventKey`/`NewEventMouse`/... of `event.go`/`key.go` are not in the
provided sources, so an event is modelled as a plain tagged value
carrying exactly the arguments the decoder passes. -/
inductive Event where
  | key (k : Key) (ch : Nat) (mods : Nat)
  | mouse (x y : Int) (btns : Nat) (mods : Nat)
  | resize (w h : Int)
  | focus (focused : Bool)
  deriving DecidableEq, Repr

/-- Modifier mask of an event (the key and mouse constructors carry one). -/
def Event.mods : Event → Nat
  | .key _ _ m => m
  | .mouse _ _ _ m => m
  | .resize _ _ => 0
  | .focus _ => 0

/-! ## Virtual key codes and tables (from `console_win.go`) -/

def vkCancel : Nat := 0x03
def vkBack : Nat := 0x08
def vkTab : Nat := 0x09
def vkClear : Nat := 0x0c
def vkReturn : Nat := 0x0d
def vkPause : Nat := 0x13
def vkEscape : Nat := 0x1b
def vkSpace : Nat := 0x20
def vkPrior : Nat := 0x21
def vkNext : Nat := 0x22
def vkEnd : Nat := 0x23
def vkHome : Nat := 0x24
def vkLeft : Nat := 0x25
def vkUp : Nat := 0x26
def vkRight : Nat := 0x27
def vkDown : Nat := 0x28
def vkPrint : Nat := 0x2a
def vkPrtScr : Nat := 0x2c
def vkInsert : Nat := 0x2d
def vkDelete : Nat := 0x2e
def vkHelp : Nat := 0x2f
def vkF1 : Nat := 0x70
def vkF2 : Nat := 0x71
def vkF3 : Nat := 0x72
def vkF4 : Nat := 0x73
def vkF5 : Nat := 0x74
def vkF6 : Nat := 0x75
def vkF7 : Nat := 0x76
def vkF8 : Nat := 0x77
def vkF9 : Nat := 0x78
def vkF10 : Nat := 0x79
def vkF11 : Nat := 0x7a
def vkF12 : Nat := 0x7b
def vkF13 : Nat := 0x7c
def vkF14 : Nat := 0x7d
def vkF15 : Nat := 0x7e
def vkF16 : Nat := 0x7f
def vkF17 : Nat := 0x80
def vkF18 : Nat := 0x81
def vkF19 : Nat := 0x82
def vkF20 : Nat := 0x83
def vkF21 : Nat := 0x84
def vkF22 : Nat := 0x85
def vkF23 : Nat := 0x86
def vkF24 : Nat := 0x87

/-- The `vkKeys` map of `console_win.go`: virtual key code to `Key`.
A Go map lookup that misses returns the `ok = false` flag, modelled by
`Option`. -/
def vkKeys (code : Nat) : Option Key :=
  if code = vkCancel then some .cancel
  else if code = vkBack then some .backspace
  else if code = vkTab then some .tab
  else if code = vkClear then some .clear
  else if code = vkPause then some .pause
  else if code = vkPrint then some .print
  else if code = vkPrtScr then some .print
  else if code = vkPrior then some .pgUp
  else if code = vkNext then some .pgDn
  else if code = vkReturn then some .enter
  else if code = vkEnd then some .end_
  else if code = vkHome then some .home
  else if code = vkLeft then some .left
  else if code = vkUp then some .up
  else if code = vkRight then some .right
  else if code = vkDown then some .down
  else if code = vkInsert then some .insert
  else if code = vkDelete then some .delete
  else if code = vkHelp then some .help
  else if code = vkEscape then some .escape
  else if code = vkSpace then some (.ch vkSpace)
  else if code = vkF1 then some .f1
  else if code = vkF2 then some .f2
  else if code = vkF3 then some .f3
  else if code = vkF4 then some .f4
  else if code = vkF5 then some .f5
  else if code = vkF6 then some .f6
  else if code = vkF7 then some .f7
  else if code = vkF8 then some .f8
  else if code = vkF9 then some .f9
  else if code = vkF10 then some .f10
  else if code = vkF11 then some .f11
  else if code = vkF12 then some .f12
  else if code = vkF13 then some .f13
  else if code = vkF14 then some .f14
  else if code = vkF15 then some .f15
  else if code = vkF16 then some .f16
  else if code = vkF17 then some .f17
  else if code = vkF18 then some .f18
  else if code = vkF19 then some .f19
  else if code = vkF20 then some .f20
  else if code = vkF21 then some .f21
  else if code = vkF22 then some .f22
  else if code = vkF23 then some .f23
  else if code = vkF24 then some .f24
  else none

/-- The `mod2mask` function of `console_win.go`: convert a Windows
`dwControlKeyState` word to a modifier mask.  Left or right ctrl is bits
`0x0008 | 0x0004`, left or right alt is bits `0x0002 | 0x0001`, shift is
bit `0x0010`; ctrl together with alt means AltGr and both are
filtered out. -/
def mod2mask (cks : Nat) : Nat :=
  let mm := modNone
  let ctrl := cks &&& (0x0008 ||| 0x0004) ≠ 0
  let alt := cks &&& (0x0002 ||| 0x0001) ≠ 0
  let mm := if ¬(ctrl ∧ alt) then
      (let mm := if ctrl then mm ||| modCtrl else mm
       if alt then mm ||| modAlt else mm)
    else mm
  if cks &&& 0x0010 ≠ 0 then mm ||| modShift else mm

/-- The fields of a Windows `KEY_EVENT_RECORD` as decoded by
`getConsoleInput` (`keyRecord` in the source). -/
structure KeyRecord where
  isdown : Int
  repeat_ : Nat
  kcode : Nat
  scode : Nat
  ch : Nat
  mod : Nat
  deriving DecidableEq, Repr

/-- The `krec.ch != 0` posting loop of `getConsoleInput`: one event per
remaining repeat count; shift+tab is converted to backtab. -/
def chEvents (k : KeyRecord) : Nat → List Event
  | 0 => []
  | n + 1 =>
    (if mod2mask k.mod = modShift ∧ k.ch = vkTab then
       Event.key .backtab 0 modNone
     else
       Event.key .rune k.ch (mod2mask k.mod)) :: chEvents k n

/-- The `vkKeys` posting loop of `getConsoleInput`: one event per
remaining repeat count (here `krec.ch = 0`, so the rune argument is
`rune(krec.ch)` as in the source). -/
def vkEvents (k : KeyRecord) (key : Key) : Nat → List Event
  | 0 => []
  | n + 1 => Event.key key k.ch (mod2mask k.mod) :: vkEvents k key n

/-- The `keyEvent` branch of `getConsoleInput`: the complete list of
events posted for one key record.  Key releases (`isdown == 0`) and
records with `repeat < 1` post nothing; records with a nonzero
character post synthesized rune (or backtab) events; otherwise the
virtual key table is consulted and unmapped keys are dropped. -/
def handleKeyRecord (k : KeyRecord) : List Event :=
  if k.isdown = 0 ∨ k.repeat_ < 1 then []
  else if k.ch ≠ 0 then chEvents k k.repeat_
  else
    match vkKeys k.kcode with
    | none => []
    | some key => vkEvents k key k.repeat_

/-- The `HasKey` method of `console_win.go`: membership in the fixed
`valid` map (101/105-key layout keys plus `KeyRune`). -/
def HasKey (k : Key) : Bool :=
  match k with
  | .backspace | .tab | .escape | .pause | .print | .pgUp | .pgDn
  | .enter | .end_ | .home | .left | .up | .right | .down
  | .insert | .delete
  | .f1 | .f2 | .f3 | .f4 | .f5 | .f6 | .f7 | .f8 | .f9 | .f10
  | .f11 | .f12
  | .rune => true
  | _ => false

/-- The exact key list of `HasKey`'s `valid` map, used to state that
`HasKey` accepts those keys and no others. -/
def hasKeyList : List Key :=
  [.backspace, .tab, .escape, .pause, .print, .pgUp, .pgDn,
   .enter, .end_, .home, .left, .up, .right, .down,
   .insert, .delete,
   .f1, .f2, .f3, .f4, .f5, .f6, .f7, .f8, .f9, .f10, .f11, .f12,
   .rune]

/-! ## Lemmas about the input decoder -/

/-- When both a ctrl bit and an alt bit are set in the control-key state,
`mod2mask` reports at most shift. -/
theorem mod2mask_altgr (cks : Nat)
    (hc : cks &&& (0x0008 ||| 0x0004) ≠ 0) (ha : cks &&& (0x0002 ||| 0x0001) ≠ 0) :
    mod2mask cks = if cks &&& 0x0010 ≠ 0 then modShift else modNone := by
  have hc' : ¬cks &&& 12 = 0 := by simpa using hc
  have ha' : ¬cks &&& 3 = 0 := by simpa using ha
  unfold mod2mask
  simp [hc', ha', modNone, modShift]

/-- Every event in the `ch ≠ 0` posting loop carries either no modifiers
(the backtab case) or exactly `mod2mask` of the record's state word. -/
theorem chEvents_mods (k : KeyRecord) (n : Nat) :
    ∀ e ∈ chEvents k n, e.mods = modNone ∨ e.mods = mod2mask k.mod := by
  induction n with
  | zero => intro e he; simp [chEvents] at he
  | succ n ih =>
    intro e he
    rw [chEvents] at he
    rcases List.mem_cons.mp he with h | h
    · subst h
      split
      · exact Or.inl rfl
      · exact Or.inr rfl
    · exact ih e h

/-- Every event in the virtual-key posting loop carries exactly
`mod2mask` of the record's state word. -/
theorem vkEvents_mods (k : KeyRecord) (key : Key) (n : Nat) :
    ∀ e ∈ vkEvents k key n, e.mods = mod2mask k.mod := by
  induction n with
  | zero => intro e he; simp [vkEvents] at he
  | succ n ih =>
    intro e he
    rw [vkEvents] at he
    rcases List.mem_cons.mp he with h | h
    · subst h; rfl
    · exact ih e h

/-- When the shift+tab condition holds, the `ch ≠ 0` loop posts exactly
`n` backtab events. -/
theorem chEvents_backtab (k : KeyRecord)
    (hm : mod2mask k.mod = modShift) (hch : k.ch = vkTab) (n : Nat) :
    chEvents k n = List.replicate n (Event.key .backtab 0 modNone) := by
  induction n with
  | zero => rfl
  | succ n ih =>
    rw [chEvents, ih, if_pos ⟨hm, hch⟩, List.replicate_succ]

/-- C4: for every key record whose control-key-state word has both a ctrl
bit (left or right, `0x0008|0x0004`) and an alt bit (left or right,
`0x0002|0x0001`) set, every event posted for that record carries a
modifier mask containing neither `ModCtrl` nor `ModAlt`: the combination
is treated as AltGr and stripped by `mod2mask`. -/
theorem altgr_strips_ctrl_alt (k : KeyRecord)
    (hc : k.mod &&& (0x0008 ||| 0x0004) ≠ 0)
    (ha : k.mod &&& (0x0002 ||| 0x0001) ≠ 0) :
    ∀ e ∈ handleKeyRecord k, e.mods &&& (modCtrl ||| modAlt) = 0 := by
  intro e he
  have hm : mod2mask k.mod &&& (modCtrl ||| modAlt) = 0 := by
    rw [mod2mask_altgr k.mod hc ha]
    split <;> decide
  unfold handleKeyRecord at he
  split at he
  · simp at he
  · split at he
    · rcases chEvents_mods k k.repeat_ e he with h | h <;> rw [h]
      · decide
      · exact hm
    · rcases hv : vkKeys k.kcode with _ | key <;> rw [hv] at he
      · simp at he
      · rw [vkEvents_mods k key k.repeat_ e he]
        exact hm

/-- Witness for `altgr_strips_ctrl_alt`: a concrete key-down record with
left ctrl (`0x0008`) and right alt (`0x0001`) both set. -/
theorem altgr_strips_ctrl_alt_witness :
    ((⟨1, 2, 0, 0, 65, 0x0009⟩ : KeyRecord).mod &&& (0x0008 ||| 0x0004) ≠ 0)
    ∧ ∀ e ∈ handleKeyRecord ⟨1, 2, 0, 0, 65, 0x0009⟩,
        e.mods &&& (modCtrl ||| modAlt) = 0 :=
  ⟨by decide, altgr_strips_ctrl_alt ⟨1, 2, 0, 0, 65, 0x0009⟩ (by decide) (by decide)⟩

/-- C5: for every key-down record with repeat count at least 1 whose
decoded modifier mask is exactly shift and whose character code is the
tab virtual key, the decoder posts a backtab key event with rune 0 and
no modifiers, once per repeat count. -/
theorem shift_tab_posts_backtab (k : KeyRecord)
    (hd : k.isdown ≠ 0) (hr : 1 ≤ k.repeat_)
    (hm : mod2mask k.mod = modShift) (hch : k.ch = vkTab) :
    handleKeyRecord k = List.replicate k.repeat_ (Event.key .backtab 0 modNone) := by
  unfold handleKeyRecord
  rw [if_neg (by push_neg; exact ⟨hd, by omega⟩), if_pos (by rw [hch]; decide)]
  exact chEvents_backtab k hm hch k.repeat_

/-- Witness for `shift_tab_posts_backtab`: shift-only state word `0x0010`,
character `0x09`, repeat 1. -/
theorem shift_tab_posts_backtab_witness :
    handleKeyRecord ⟨1, 1, 0x09, 0, 0x09, 0x0010⟩
      = List.replicate 1 (Event.key .backtab 0 modNone) :=
  shift_tab_posts_backtab ⟨1, 1, 0x09, 0, 0x09, 0x0010⟩
    (by decide) (by decide) (by decide) (by decide)

/-- C9: `HasKey` returns false for every key in `KeyF13 .. KeyF24` even
though the virtual-key table `vkKeys` maps the codes `0x7c .. 0x87` to
exactly those keys; `HasKey` returns true precisely for the fixed
101/105-key set ending at F12 plus `KeyRune`. -/
theorem hasKey_excludes_f13_f24 :
    (HasKey .f13 = false ∧ HasKey .f14 = false ∧ HasKey .f15 = false ∧
     HasKey .f16 = false ∧ HasKey .f17 = false ∧ HasKey .f18 = false ∧
     HasKey .f19 = false ∧ HasKey .f20 = false ∧ HasKey .f21 = false ∧
     HasKey .f22 = false ∧ HasKey .f23 = false ∧ HasKey .f24 = false)
    ∧ (vkKeys 0x7c = some .f13 ∧ vkKeys 0x7d = some .f14 ∧
       vkKeys 0x7e = some .f15 ∧ vkKeys 0x7f = some .f16 ∧
       vkKeys 0x80 = some .f17 ∧ vkKeys 0x81 = some .f18 ∧
       vkKeys 0x82 = some .f19 ∧ vkKeys 0x83 = some .f20 ∧
       vkKeys 0x84 = some .f21 ∧ vkKeys 0x85 = some .f22 ∧
       vkKeys 0x86 = some .f23 ∧ vkKeys 0x87 = some .f24)
    ∧ ∀ k : Key, HasKey k = hasKeyList.contains k := by
  refine ⟨by decide, by decide, ?_⟩
  intro k
  cases k <;> rfl

/-! ## Colors and styles (modelled from the spec / `color.go`, `style.go`) -/

/-- Modelled from the spec: a color is either a palette index (0..255,
with a defined 16-entry low palette), an RGB triple, `ColorDefault`
(use the terminal default) or `ColorReset` (clear a prior override).
`color.go` is not in the provided sources. -/
inductive Color where
  | default
  | reset
  | palette (n : Nat)
  | rgb (r g b : Nat)
  deriving DecidableEq, Repr

/-- Modelled from the spec: `Color.Valid()` — a concrete (palette or RGB)
color, as opposed to the default/reset sentinels. -/
def Color.valid : Color → Bool
  | .palette _ => true
  | .rgb _ _ _ => true
  | _ => false

/-- Modelled from the spec: `Color.IsRGB()`. -/
def Color.isRGB : Color → Bool
  | .rgb _ _ _ => true
  | _ => false

/-- Modelled from the spec: `Color.RGB()` — the red/green/blue components
of an RGB color.  For palette colors the Go code consults the palette
table of `color.go`, which is not in the provided sources; no claim
inspects those values, so they are left at zero here. -/
def Color.toRGB : Color → Nat × Nat × Nat
  | .rgb r g b => (r, g, b)
  | _ => (0, 0, 0)

/-- Modelled from the spec: the low 8 bits of the color word (`c & 0xff`
in the source), which for a palette color is its palette index. -/
def Color.low8 : Color → Nat
  | .palette n => n &&& 0xff
  | _ => 0

/-- Modelled from the spec: the 16 named low-palette colors.  Their
palette indices follow the fixed 16-entry low palette; only their
distinctness and their `vgaColors` images matter for the claims. -/
def ColorBlack : Color := .palette 0
def ColorMaroon : Color := .palette 1
def ColorGreen : Color := .palette 2
def ColorOlive : Color := .palette 3
def ColorNavy : Color := .palette 4
def ColorPurple : Color := .palette 5
def ColorTeal : Color := .palette 6
def ColorSilver : Color := .palette 7
def ColorGray : Color := .palette 8
def ColorRed : Color := .palette 9
def ColorLime : Color := .palette 10
def ColorYellow : Color := .palette 11
def ColorBlue : Color := .palette 12
def ColorFuchsia : Color := .palette 13
def ColorAqua : Color := .palette 14
def ColorWhite : Color := .palette 15

/-- Modelled from the spec: `ColorGrey` is the alternate spelling of
`ColorGray` (the source uses both names for the same color). -/
def ColorGrey : Color := ColorGray

/-- Modelled from the spec: underline substyles
none/solid/double/curly/dotted/dashed, as consecutive constants. -/
def underlineStyleNone : Nat := 0
def underlineStyleSolid : Nat := 1
def underlineStyleDouble : Nat := 2
def underlineStyleCurly : Nat := 3
def underlineStyleDotted : Nat := 4
def underlineStyleDashed : Nat := 5

/-- Modelled from the spec: attribute mask bits of a `Style`
(bold, blink, reverse, underline, dim), `1 << iota` layout. -/
def AttrBold : Nat := 1
def AttrBlink : Nat := 2
def AttrReverse : Nat := 4
def AttrUnderline : Nat := 8
def AttrDim : Nat := 16
def AttrInvalid : Nat := 2 ^ 31

/-- Modelled from the spec: a `Style` aggregates foreground color,
background color, attribute mask, underline substyle, underline color,
and the hyperlink URL and id strings (`style.go` is not in the provided
sources). -/
structure Style where
  fg : Color
  bg : Color
  attrs : Nat
  ulStyle : Nat
  ulColor : Color
  url : String
  urlId : String
  deriving DecidableEq, Repr

/-- Modelled from the spec: `StyleDefault`, the neutral sentinel. -/
def StyleDefault : Style :=
  ⟨.default, .default, 0, underlineStyleNone, .default, "", ""⟩

/-- Modelled from the spec: `styleInvalid`, an internal sentinel distinct
from any emittable style, used to force a style transition. -/
def styleInvalid : Style :=
  { StyleDefault with attrs := AttrInvalid }

/-- The `winPalette` slice of `console_win.go`: the fixed 16-entry VGA
palette used for nearest-color search. -/
def winPalette : List Color :=
  [ColorBlack, ColorMaroon, ColorGreen, ColorNavy,
   ColorOlive, ColorPurple, ColorTeal, ColorSilver,
   ColorGray, ColorRed, ColorLime, ColorBlue,
   ColorYellow, ColorFuchsia, ColorAqua, ColorWhite]

/-- The initial key set of the `winColors` map of `console_win.go` (the
memoized color cache starts as the identity on the 16 named colors;
the memoization itself is state-transparent for a deterministic
`FindColor` and is therefore not modelled). -/
def winColorsKeys : List Color :=
  [ColorBlack, ColorMaroon, ColorGreen, ColorNavy,
   ColorOlive, ColorPurple, ColorTeal, ColorSilver,
   ColorGray, ColorRed, ColorLime, ColorBlue,
   ColorYellow, ColorFuchsia, ColorAqua, ColorWhite]

/-- The `vgaColors` map of `console_win.go`: named color to 4-bit VGA
attribute value. -/
def vgaColors (c : Color) : Option Nat :=
  if c = ColorBlack then some 0
  else if c = ColorMaroon then some 0x4
  else if c = ColorGreen then some 0x2
  else if c = ColorNavy then some 0x1
  else if c = ColorOlive then some 0x6
  else if c = ColorPurple then some 0x5
  else if c = ColorTeal then some 0x3
  else if c = ColorSilver then some 0x7
  else if c = ColorGrey then some 0x8
  else if c = ColorRed then some 0xc
  else if c = ColorLime then some 0xa
  else if c = ColorBlue then some 0x9
  else if c = ColorYellow then some 0xe
  else if c = ColorFuchsia then some 0xd
  else if c = ColorAqua then some 0xb
  else if c = ColorWhite then some 0xf
  else none

/-- The `mapColor2RGB` function of `console_win.go`, parameterized by the
nearest-color search `FindColor` of `color.go` (not in the provided
sources; the spec says only that it searches `winPalette`, and no claim
depends on which entry it selects).  A color already in the `winColors`
cache is used as is, otherwise `FindColor` picks a palette color; the
result is the color's VGA attribute value, or 0 when the lookup
misses. -/
def mapColor2RGB (fc : Color → List Color → Color) (c : Color) : Nat :=
  let c := if winColorsKeys.contains c then c else fc c winPalette
  (vgaColors c).getD 0

/-- The foreground nibble selection of `mapStyle`: a concrete color is
mapped through `mapColor2RGB`; `ColorDefault`/`ColorReset` fall back to
the low nibble of the attribute word captured at `Init`. -/
def resolveFg (fc : Color → List Color → Color) (oattrs : Nat) (c : Color) : Nat :=
  if c ≠ Color.default ∧ c ≠ Color.reset then mapColor2RGB fc c
  else oattrs &&& 0xf

/-- The background nibble selection of `mapStyle`: as `resolveFg`, with
the fallback taken from the second nibble of the captured attribute
word. -/
def resolveBg (fc : Color → List Color → Color) (oattrs : Nat) (c : Color) : Nat :=
  if c ≠ Color.default ∧ c ≠ Color.reset then mapColor2RGB fc c
  else (oattrs >>> 4) &&& 0xf

/-- The `mapStyle` method of `console_win.go`: map a tcell style to a
legacy Windows attribute word.  `oattrs` is `s.oscreen.attrs`, the
attribute word captured at `Init`.  Reverse is simulated by swapping the
two nibbles; bold then sets bit `0x8` of the (possibly swapped) word,
dim clears it, and underline sets bit `0x8000` (`attr &^= 0x8` on a
`uint16` is `attr &&& 0xfff7`). -/
def mapStyle (fc : Color → List Color → Color) (oattrs : Nat) (style : Style) : Nat :=
  let fa := resolveFg fc oattrs style.fg
  let ba := resolveBg fc oattrs style.bg
  let a := style.attrs
  let attr := if a &&& AttrReverse ≠ 0 then ba ||| (fa <<< 4) else fa ||| (ba <<< 4)
  let attr := if a &&& AttrBold ≠ 0 then attr ||| 0x8 else attr
  let attr := if a &&& AttrDim ≠ 0 then attr &&& 0xfff7 else attr
  let attr := if a &&& AttrUnderline ≠ 0 then attr ||| 0x8000 else attr
  attr

/-- The bold/dim adjustment the claim describes, applied to a nibble
value: bold sets bit `0x8`, dim clears it (this is the spec's wording of
what happens to the nibble that ends up in the foreground position). -/
def boldDimAdjust (a v : Nat) : Nat :=
  let v := if a &&& AttrBold ≠ 0 then v ||| 0x8 else v
  if a &&& AttrDim ≠ 0 then v &&& 0x7 else v

/-! ## Lemmas about the legacy style translator -/

/-- Bounding an if-chain of optional VGA values one branch at a time. -/
theorem getD_ite_lt (p : Prop) [Decidable p] (a b : Option Nat)
    (ha : a.getD 0 < 16) (hb : b.getD 0 < 16) :
    (if p then a else b).getD 0 < 16 := by
  split <;> assumption

/-- Every result of a `vgaColors` lookup (with the map's zero value as
the miss default) is a VGA index in `0..15`. -/
theorem vgaColors_getD_lt (c : Color) : (vgaColors c).getD 0 < 16 := by
  unfold vgaColors
  repeat' apply getD_ite_lt
  all_goals decide

/-- The legacy color mapper always yields a VGA index in `0..15`. -/
theorem mapColor2RGB_lt (fc : Color → List Color → Color) (c : Color) :
    mapColor2RGB fc c < 16 :=
  vgaColors_getD_lt (if winColorsKeys.contains c then c else fc c winPalette)

/-- The foreground nibble selected by `mapStyle` is in `0..15`. -/
theorem resolveFg_lt (fc : Color → List Color → Color) (oattrs : Nat) (c : Color) :
    resolveFg fc oattrs c < 16 := by
  unfold resolveFg
  split
  · exact mapColor2RGB_lt fc c
  · exact lt_of_le_of_lt Nat.and_le_right (by norm_num)

/-- The background nibble selected by `mapStyle` is in `0..15`. -/
theorem resolveBg_lt (fc : Color → List Color → Color) (oattrs : Nat) (c : Color) :
    resolveBg fc oattrs c < 16 := by
  unfold resolveBg
  split
  · exact mapColor2RGB_lt fc c
  · exact lt_of_le_of_lt Nat.and_le_right (by norm_num)

/-- C6: the legacy attribute word built by `mapStyle` keeps all color
information in the two low nibbles (bits 8..14 are never set, so only
indices 0..15 appear in the foreground and background nibbles); with the
reverse attribute the two nibbles are swapped before bold/dim adjust the
(now foreground) nibble, so the low nibble holds the bold/dim-adjusted
background color and the high nibble the untouched foreground color;
underline is exactly bit `0x8000`; and `ColorDefault`/`ColorReset` fall
back to the corresponding nibble of the attribute word captured at
`Init`. -/
theorem mapStyle_legacy_props (fc : Color → List Color → Color)
    (oattrs : Nat) (style : Style) :
    (mapColor2RGB fc style.fg < 16 ∧ mapColor2RGB fc style.bg < 16)
    ∧ (mapStyle fc oattrs style &&& 0x7f00 = 0
       ∧ (style.attrs &&& AttrReverse ≠ 0 →
            mapStyle fc oattrs style &&& 0xf
              = boldDimAdjust style.attrs (resolveBg fc oattrs style.bg)
            ∧ (mapStyle fc oattrs style >>> 4) &&& 0xf
              = resolveFg fc oattrs style.fg)
       ∧ (style.attrs &&& AttrUnderline ≠ 0
            ↔ mapStyle fc oattrs style &&& 0x8000 = 0x8000))
    ∧ (resolveFg fc oattrs Color.default = oattrs &&& 0xf
       ∧ resolveFg fc oattrs Color.reset = oattrs &&& 0xf
       ∧ resolveBg fc oattrs Color.default = (oattrs >>> 4) &&& 0xf
       ∧ resolveBg fc oattrs Color.reset = (oattrs >>> 4) &&& 0xf) := by
  refine ⟨⟨mapColor2RGB_lt fc _, mapColor2RGB_lt fc _⟩, ?_,
    by simp [resolveFg], by simp [resolveFg], by simp [resolveBg], by simp [resolveBg]⟩
  have hfa := resolveFg_lt fc oattrs style.fg
  have hba := resolveBg_lt fc oattrs style.bg
  simp only [mapStyle, boldDimAdjust]
  generalize hg1 : resolveFg fc oattrs style.fg = fa at hfa ⊢
  generalize hg2 : resolveBg fc oattrs style.bg = ba at hba ⊢
  clear hg1 hg2
  by_cases h1 : style.attrs &&& AttrReverse ≠ 0 <;>
    by_cases h2 : style.attrs &&& AttrBold ≠ 0 <;>
      by_cases h3 : style.attrs &&& AttrDim ≠ 0 <;>
        by_cases h4 : style.attrs &&& AttrUnderline ≠ 0 <;>
          simp only [h1, h2, h3, h4, if_true, if_false, ite_true, ite_false,
            not_true, not_false_iff, if_neg, if_pos, ne_eq, not_not,
            true_implies, false_implies, true_and, and_true, iff_true,
            iff_false, not_false_eq_true, true_iff, false_iff] <;>
          revert hba <;> revert ba <;> revert hfa <;> revert fa <;> decide

/-- A concrete `FindColor` instantiation for witnesses (the theorems hold
for every choice of nearest-color search). -/
def fcSample : Color → List Color → Color := fun c _ => c

/-- A sample style with reverse, bold and underline set, red foreground,
default background. -/
def styleSampleRevBold : Style :=
  ⟨ColorRed, Color.default, AttrReverse ||| AttrBold ||| AttrUnderline,
   underlineStyleNone, Color.default, "", ""⟩

/-- Witness for `mapStyle_legacy_props` at a concrete style with
reverse+bold+underline: the low nibble is the bold-adjusted background
nibble of the captured attribute word and the high nibble is the mapped
red foreground. -/
theorem mapStyle_legacy_props_witness :
    mapStyle fcSample 0x70 styleSampleRevBold &&& 0xf
      = boldDimAdjust styleSampleRevBold.attrs (resolveBg fcSample 0x70 styleSampleRevBold.bg)
    ∧ (mapStyle fcSample 0x70 styleSampleRevBold >>> 4) &&& 0xf
      = resolveFg fcSample 0x70 styleSampleRevBold.fg
    ∧ mapStyle fcSample 0x70 styleSampleRevBold &&& 0x8000 = 0x8000 :=
  ⟨((mapStyle_legacy_props fcSample 0x70 styleSampleRevBold).2.1.2.1 (by decide)).1,
   ((mapStyle_legacy_props fcSample 0x70 styleSampleRevBold).2.1.2.1 (by decide)).2,
   ((mapStyle_legacy_props fcSample 0x70 styleSampleRevBold).2.1.2.2).mp (by decide)⟩

/-! ## Environment knobs read during `Init` (from `console_win.go`) -/

/-- The environment variables `Init` consults, as read by `os.Getenv`
(an unset variable reads as the empty string). -/
structure WinEnv where
  conEmuPID : String
  tcellTruecolor : String
  tcellVtMode : String
  tcellAltScreen : String
  deriving DecidableEq, Repr

/-- The truecolor/VT flags as they stand after `Init`'s ConEmu check and
its `TCELL_TRUECOLOR` switch (lines 218–236 of the source):
`s.truecolor = true` initially, `tryVt = true` initially, both cleared
when `ConEmuPID` is set; then `TCELL_TRUECOLOR=disable` clears only
`s.truecolor`, while `TCELL_TRUECOLOR=enable` sets both `s.truecolor`
and `tryVt`. -/
def initColorFlags (env : WinEnv) : Bool × Bool :=
  let truecolor := true
  let tryVt := true
  let p := if env.conEmuPID ≠ "" then (false, false) else (truecolor, tryVt)
  match env.tcellTruecolor with
  | "disable" => (false, p.2)
  | "enable" => (true, true)
  | _ => p

/-- The VT-attempt flag as it stands at the `if tryVt` test of `Init`
(after the `TCELL_VTMODE` switch has possibly overridden it). -/
def tryVtFinal (env : WinEnv) : Bool :=
  match env.tcellVtMode with
  | "disable" => false
  | "enable" => true
  | _ => (initColorFlags env).2

/-- The `disableAlt` flag after `Init`'s `TCELL_ALTSCREEN` switch
(`disableAlt0` is the field's prior value, `false` on a fresh screen). -/
def disableAltFlag (env : WinEnv) (disableAlt0 : Bool) : Bool :=
  match env.tcellAltScreen with
  | "enable" => false
  | "disable" => true
  | _ => disableAlt0

/-- The `vten`/`truecolor` outcome of the VT attempt at the end of
`Init`: when `tryVt` holds the VT output mode is requested and `vten`
is set iff the console kept the VT bit (`vtSticks`); a failed attempt
also clears `truecolor`. -/
def initVtOutcome (env : WinEnv) (vtSticks : Bool) : Bool × Bool :=
  if tryVtFinal env then
    if vtSticks then (true, (initColorFlags env).1) else (false, false)
  else (false, (initColorFlags env).1)

/-- Counterexample to C8: in an environment with only
`TCELL_TRUECOLOR=disable` set, the claim says the VT-path attempt is
forced off, but `Init` leaves the attempt on (`disable` clears only the
truecolor flag). -/
theorem truecolor_disable_keeps_vt :
    (initColorFlags ⟨"", "disable", "", ""⟩).1 = false
    ∧ (initColorFlags ⟨"", "disable", "", ""⟩).2 = true
    ∧ tryVtFinal ⟨"", "disable", "", ""⟩ = true := by
  decide

/-- C8 (amended): `TCELL_TRUECOLOR=enable` forces the truecolor flag and
the VT-path attempt on (subject only to a later `TCELL_VTMODE`
override), while `TCELL_TRUECOLOR=disable` forces only the truecolor
flag off and leaves the VT-path attempt unchanged (on unless `ConEmuPID`
is set). -/
theorem truecolor_env_forcing (env : WinEnv) :
    (env.tcellTruecolor = "enable" →
       (initColorFlags env).1 = true ∧ (initColorFlags env).2 = true)
    ∧ (env.tcellTruecolor = "disable" →
       (initColorFlags env).1 = false
       ∧ (initColorFlags env).2 = decide (env.conEmuPID = "")) := by
  constructor
  · intro h
    simp [initColorFlags, h]
  · intro h
    unfold initColorFlags
    rw [h]
    by_cases hp : env.conEmuPID = "" <;> simp [hp]

/-- Witness for `truecolor_env_forcing`: the enable case at the
environment `TCELL_TRUECOLOR=enable`, and the disable case at
`TCELL_TRUECOLOR=disable` with `ConEmuPID` unset. -/
theorem truecolor_env_forcing_witness :
    ((initColorFlags ⟨"", "enable", "", ""⟩).1 = true
      ∧ (initColorFlags ⟨"", "enable", "", ""⟩).2 = true)
    ∧ ((initColorFlags ⟨"x", "disable", "", ""⟩).1 = false
      ∧ (initColorFlags ⟨"x", "disable", "", ""⟩).2 = decide (("x" : String) = "")) :=
  ⟨(truecolor_env_forcing ⟨"", "enable", "", ""⟩).1 rfl,
   (truecolor_env_forcing ⟨"x", "disable", "", ""⟩).2 rfl⟩

/-! ## UTF-16 encoding (Go's `unicode/utf16` package) -/

/-- Go's `utf16.Encode` for a single rune: code points below the
surrogate range and the BMP above it encode as themselves, supplementary
planes as a surrogate pair, and invalid runes as the replacement
character `0xFFFD`. -/
def utf16EncodeRune (r : Nat) : List Nat :=
  if r < 0xd800 ∨ (0xe000 ≤ r ∧ r < 0x10000) then [r]
  else if 0x10000 ≤ r ∧ r ≤ 0x10ffff then
    [0xd800 + (r - 0x10000) / 0x400, 0xdc00 + (r - 0x10000) % 0x400]
  else [0xfffd]

/-- Go's `utf16.Encode` over a rune sequence. -/
def utf16Encode (rs : List Nat) : List Nat :=
  (rs.map utf16EncodeRune).flatten

/-- UTF-16 code units of a string (`utf16.Encode([]rune(s))` in the
source). -/
def utf16Str (s : String) : List Nat :=
  utf16Encode (s.data.map Char.toNat)

/-! ## VT escape strings (from `console_win.go`); the `%d`/`%x` format
verbs of the Go constants become string-building functions. -/

def vtShowCursor : String := "\x1b[?25h"
def vtHideCursor : String := "\x1b[?25l"

/-- The `vtCursorPos` format `ESC [ %d ; %d H` (Y first, origin 1,1). -/
def vtCursorPos (y x : Int) : String :=
  "\x1b[" ++ toString y ++ ";" ++ toString x ++ "H"

def vtSgr0 : String := "\x1b[0m"
def vtBold : String := "\x1b[1m"
def vtUnderline : String := "\x1b[4m"
def vtBlink : String := "\x1b[5m"
def vtReverse : String := "\x1b[7m"

def vtSetFg (n : Nat) : String := "\x1b[38;5;" ++ toString n ++ "m"
def vtSetBg (n : Nat) : String := "\x1b[48;5;" ++ toString n ++ "m"
def vtSetFgRGB (r g b : Nat) : String :=
  "\x1b[38;2;" ++ toString r ++ ";" ++ toString g ++ ";" ++ toString b ++ "m"
def vtSetBgRGB (r g b : Nat) : String :=
  "\x1b[48;2;" ++ toString r ++ ";" ++ toString g ++ ";" ++ toString b ++ "m"

def vtCursorDefault : String := "\x1b[0 q"
def vtCursorBlinkingBlock : String := "\x1b[1 q"
def vtCursorSteadyBlock : String := "\x1b[2 q"
def vtCursorBlinkingUnderline : String := "\x1b[3 q"
def vtCursorSteadyUnderline : String := "\x1b[4 q"
def vtCursorBlinkingBar : String := "\x1b[5 q"
def vtCursorSteadyBar : String := "\x1b[6 q"

def vtDisableAm : String := "\x1b[?7l"
def vtEnableAm : String := "\x1b[?7h"
def vtEnterCA : String := "\x1b[?1049h\x1b[22;0;0t"
def vtExitCA : String := "\x1b[?1049l\x1b[23;0;0t"
def vtDoubleUnderline : String := "\x1b[4:2m"
def vtCurlyUnderline : String := "\x1b[4:3m"
def vtDottedUnderline : String := "\x1b[4:4m"
def vtDashedUnderline : String := "\x1b[4:5m"

def vtUnderColor (n : Nat) : String := "\x1b[58:5:" ++ toString n ++ "m"
def vtUnderColorRGB (r g b : Nat) : String :=
  "\x1b[58:2::" ++ toString r ++ ":" ++ toString g ++ ":" ++ toString b ++ "m"
def vtUnderColorReset : String := "\x1b[59m"

def vtEnterUrl (id url : String) : String := "\x1b]8;" ++ id ++ ";" ++ url ++ "\x1b\\"
def vtExitUrl : String := "\x1b]8;;\x1b\\"

/-- Lower-case hex digit of a value below 16 (for the `%02x` verb). -/
def hexDigit (n : Nat) : Char :=
  if n < 10 then Char.ofNat (48 + n) else Char.ofNat (87 + n)

/-- Two lower-case hex digits of a byte (the `%02x` verb). -/
def hex2 (n : Nat) : String :=
  String.mk [hexDigit ((n / 16) % 16), hexDigit (n % 16)]

def vtCursorColorRGB (r g b : Nat) : String :=
  "\x1b]12;#" ++ hex2 r ++ hex2 g ++ hex2 b ++ "\x07"
def vtCursorColorReset : String := "\x1b]112\x07"
def vtSaveTitle : String := "\x1b[22;2t"
def vtRestoreTitle : String := "\x1b[23;2t"
def vtSetTitle (t : String) : String := "\x1b]2;" ++ t ++ "\x1b\\"

/-- Modelled from the spec: the seven `CursorStyle` constants of
`screen.go` (an integer type with consecutive values). -/
def cursorStyleDefault : Nat := 0
def cursorStyleBlinkingBlock : Nat := 1
def cursorStyleSteadyBlock : Nat := 2
def cursorStyleBlinkingUnderline : Nat := 3
def cursorStyleSteadyUnderline : Nat := 4
def cursorStyleBlinkingBar : Nat := 5
def cursorStyleSteadyBar : Nat := 6

/-- The `vtCursorStyles` map of `console_win.go`: cursor style to escape
string; a missing key reads as Go's zero value, modelled by `Option`
with `""` supplied at the lookup sites. -/
def vtCursorStyles (cs : Nat) : Option String :=
  if cs = cursorStyleDefault then some vtCursorDefault
  else if cs = cursorStyleBlinkingBlock then some vtCursorBlinkingBlock
  else if cs = cursorStyleSteadyBlock then some vtCursorSteadyBlock
  else if cs = cursorStyleBlinkingUnderline then some vtCursorBlinkingUnderline
  else if cs = cursorStyleSteadyUnderline then some vtCursorSteadyUnderline
  else if cs = cursorStyleBlinkingBar then some vtCursorBlinkingBar
  else if cs = cursorStyleSteadyBar then some vtCursorSteadyBar
  else none

/-! ## Cell buffer (modelled from the spec / `cellbuffer.go`) -/

/-- Modelled from the spec: a cell holds one primary code point, zero or
more combining code points, a style, a width in columns, and a dirty
bit. -/
structure Cell where
  mainc : Nat
  combc : List Nat
  style : Style
  width : Nat
  dirty : Bool
  deriving DecidableEq, Repr

/-- The zero-valued cell returned for out-of-range access. -/
def Cell.zero : Cell := ⟨0, [], StyleDefault, 0, false⟩

/-- Modelled from the spec: a dense W×H grid of cells addressed in
row-major order.  The backing array is modelled as a total map from the
row-major index (`y*w + x`); indices outside `w*h` are never observed
because every accessor bounds-checks as the source does. -/
structure CellBuffer where
  w : Nat
  h : Nat
  cells : Nat → Cell

namespace CellBuffer

/-- Bounds-checked cell access; out-of-range access returns a
zero-valued cell and never panics. -/
def getCell (cb : CellBuffer) (x y : Nat) : Cell :=
  if x < cb.w ∧ y < cb.h then cb.cells (y * cb.w + x) else Cell.zero

/-- Modelled from the spec: `GetContent(x,y)` returns the primary rune,
combining runes, style and width of a cell; width 0 is not allowed and
is normalized to 1. -/
def getContent (cb : CellBuffer) (x y : Nat) : Nat × List Nat × Style × Nat :=
  let c := cb.getCell x y
  (c.mainc, c.combc, c.style, if c.width = 0 then 1 else c.width)

/-- Modelled from the spec: `Dirty(x,y)`; out-of-range cells read as not
dirty. -/
def dirty (cb : CellBuffer) (x y : Nat) : Bool :=
  (cb.getCell x y).dirty

/-- Modelled from the spec: `SetDirty(x,y,flag)`; bounds-checked, and
only the addressed cell's dirty bit changes. -/
def setDirty (cb : CellBuffer) (x y : Nat) (b : Bool) : CellBuffer :=
  if x < cb.w ∧ y < cb.h then
    { cb with cells := fun i =>
        if i = y * cb.w + x then { cb.cells (y * cb.w + x) with dirty := b }
        else cb.cells i }
  else cb

/-- Modelled from the spec: `Invalidate()` forces every cell dirty. -/
def invalidate (cb : CellBuffer) : CellBuffer :=
  { cb with cells := fun i => { cb.cells i with dirty := true } }

/-- Modelled from the spec: `Resize(w,h)` reallocates to the new
dimensions, preserves the overlapping region and marks all cells
dirty. -/
def resize (cb : CellBuffer) (w h : Nat) : CellBuffer :=
  ⟨w, h, fun i => { cb.getCell (i % w) (i / w) with dirty := true }⟩

/-- A cell with its dirty bit forgotten, for comparing buffer contents
independently of dirty state. -/
def stripDirty (c : Cell) : Cell := { c with dirty := false }

/-- Two buffers agree except possibly on dirty bits. -/
def contentEq (cb₁ cb₂ : CellBuffer) : Prop :=
  cb₁.w = cb₂.w ∧ cb₁.h = cb₂.h ∧
    ∀ i, stripDirty (cb₁.cells i) = stripDirty (cb₂.cells i)

end CellBuffer

/-! ## The screen state and host-console operations -/

structure Coord where
  x : Int
  y : Int
  deriving DecidableEq, Repr

structure Rect where
  left : Int
  top : Int
  right : Int
  bottom : Int
  deriving DecidableEq, Repr

structure CursorInfo where
  size : Nat
  visible : Nat
  deriving DecidableEq, Repr

structure ConsoleInfo where
  size : Coord
  pos : Coord
  attrs : Nat
  win : Rect
  maxsz : Coord
  deriving DecidableEq, Repr

/-- The observable operations the driver performs on the host console:
VT escape emission (`emitVtString`/`WriteConsole`) and the legacy
Console API calls. -/
inductive COp where
  | vtEmit (s : String)
  | setCursorInfoOp (size visible : Nat)
  | setCursorPosOp (x y : Int)
  | setTextAttr (a : Nat)
  | writeConsole (units : List Nat)
  | setBufferSizeOp (x y : Int)
  | setWindowInfoOp (r : Rect)
  | setInModeOp (m : Nat)
  | setOutModeOp (m : Nat)
  | setEventOp
  | fillAttr (a count : Nat)
  | fillChar (c count : Nat)
  deriving DecidableEq, Repr

/-- The `cScreen` state.  The `conInfo` field models what
`GetConsoleScreenBufferInfo` currently reports for the attached console
(the external world), and `quitClosed`/`stopQClosed`/`finiDone` model
the quit channel, the scanner stop channel and the `sync.Once` latch. -/
structure CScreen where
  curx : Int
  cury : Int
  style : Style
  fini : Bool
  vten : Bool
  truecolor : Bool
  running : Bool
  disableAlt : Bool
  title : String
  w : Int
  h : Int
  oscreen : ConsoleInfo
  ocursor : CursorInfo
  cursorStyle : Nat
  cursorColor : Color
  oimode : Nat
  oomode : Nat
  cells : CellBuffer
  focusEnable : Bool
  mouseEnabled : Bool
  quitClosed : Bool
  stopQClosed : Bool
  finiDone : Bool
  eventQ : List Event
  conInfo : ConsoleInfo

/-! ## Cursor operations (from `console_win.go`) -/

/-- `hideCursor`: a VT hide escape, or a legacy cursor-info call with
size 1 and visible 0. -/
def hideCursorOps (s : CScreen) : List COp :=
  if s.vten then [.vtEmit vtHideCursor] else [.setCursorInfoOp 1 0]

/-- `showCursor`: under VT, the show escape, the cursor style escape and
(for reset or valid colors) a cursor color escape; legacy shows a
size-100 visible cursor. -/
def showCursorOps (s : CScreen) : List COp :=
  if s.vten then
    [.vtEmit vtShowCursor, .vtEmit ((vtCursorStyles s.cursorStyle).getD "")]
    ++ (if s.cursorColor = Color.reset then [.vtEmit vtCursorColorReset]
        else if s.cursorColor.valid then
          [.vtEmit (vtCursorColorRGB s.cursorColor.toRGB.1
            s.cursorColor.toRGB.2.1 s.cursorColor.toRGB.2.2)]
        else [])
  else [.setCursorInfoOp 100 1]

/-- `setCursorPos(x, y, vtEnable)`: a VT positioning escape (Y first,
origin 1,1) or the legacy positioning call. -/
def setCursorPosOps (x y : Int) (vtEnable : Bool) : List COp :=
  if vtEnable then [.vtEmit (vtCursorPos (y + 1) (x + 1))]
  else [.setCursorPosOp x y]

/-- `doCursor`: hide when the advertised position is out of range,
otherwise position then show. -/
def doCursorOps (s : CScreen) : List COp :=
  if s.curx < 0 ∨ s.cury < 0 ∨ s.curx ≥ s.w ∨ s.cury ≥ s.h then
    hideCursorOps s
  else
    setCursorPosOps s.curx s.cury s.vten ++ showCursorOps s

/-- `ShowCursor(x, y)`: record the position unless finalized, then
`doCursor` (which the source runs regardless of the `fini` guard). -/
def showCursorM (s : CScreen) (x y : Int) : CScreen × List COp :=
  let s1 := if s.fini = false then { s with curx := x, cury := y } else s
  (s1, doCursorOps s1)

/-- `SetCursor(cs, cc)`: unless finalized, and only when `cs` is a known
cursor style, store the style and color and refresh the cursor. -/
def setCursorM (s : CScreen) (cs : Nat) (cc : Color) : CScreen × List COp :=
  if s.fini = false then
    match vtCursorStyles cs with
    | some _ =>
      let s1 := { s with cursorStyle := cs, cursorColor := cc }
      (s1, doCursorOps s1)
    | none => (s, [])
  else (s, [])

/-! ## VT style strings and run rendering (from `console_win.go`) -/

/-- The `makeVtStyle` method: SGR reset, bold iff bold-and-not-dim,
blink, underline color/style, reverse, foreground, background, and the
hyperlink open or close form, concatenated in source order. -/
def makeVtStyle (style : Style) : String :=
  let fg := style.fg
  let bg := style.bg
  let attrs := style.attrs
  let us := style.ulStyle
  let uc := style.ulColor
  let esc := vtSgr0
  let esc := if attrs &&& (AttrBold ||| AttrDim) = AttrBold then esc ++ vtBold else esc
  let esc := if attrs &&& AttrBlink ≠ 0 then esc ++ vtBlink else esc
  let esc :=
    if us ≠ underlineStyleNone then
      let esc :=
        if uc = Color.reset then esc ++ vtUnderColorReset
        else if uc.isRGB then
          esc ++ vtUnderColorRGB uc.toRGB.1 uc.toRGB.2.1 uc.toRGB.2.2
        else if uc.valid then esc ++ vtUnderColor uc.low8
        else esc
      let esc := esc ++ vtUnderline
      if us = underlineStyleDouble then esc ++ vtDoubleUnderline
      else if us = underlineStyleCurly then esc ++ vtCurlyUnderline
      else if us = underlineStyleDotted then esc ++ vtDottedUnderline
      else if us = underlineStyleDashed then esc ++ vtDashedUnderline
      else esc
    else esc
  let esc := if attrs &&& AttrReverse ≠ 0 then esc ++ vtReverse else esc
  let esc :=
    if fg.isRGB then esc ++ vtSetFgRGB fg.toRGB.1 fg.toRGB.2.1 fg.toRGB.2.2
    else if fg.valid then esc ++ vtSetFg fg.low8
    else esc
  let esc :=
    if bg.isRGB then esc ++ vtSetBgRGB bg.toRGB.1 bg.toRGB.2.1 bg.toRGB.2.2
    else if bg.valid then esc ++ vtSetBg bg.low8
    else esc
  if style.url ≠ "" then esc ++ vtEnterUrl style.urlId style.url
  else esc ++ vtExitUrl

/-- A single `writeString` invocation of the draw loop: starting cell,
style, and the accumulated UTF-16 code units. -/
structure Run where
  x : Int
  y : Int
  style : Style
  chs : List Nat
  deriving DecidableEq, Repr

/-- `writeString` drops empty runs; otherwise the run is recorded in
emission order. -/
def writeStringRun (runs : List Run) (x y : Int) (style : Style) (chs : List Nat) :
    List Run :=
  if chs = [] then runs else runs ++ [⟨x, y, style, chs⟩]

/-- The host-console operations of one (non-empty) `writeString` call:
under VT one `WriteConsole` of positioning escape, style escape and
text; on the legacy path position, set the text attribute, then
write. -/
def renderRun (fc : Color → List Color → Color) (s : CScreen) (r : Run) : List COp :=
  if r.chs = [] then []
  else if s.vten then
    [.writeConsole (utf16Str (vtCursorPos (r.y + 1) (r.x + 1))
      ++ utf16Str (makeVtStyle r.style) ++ r.chs)]
  else
    [.setCursorPosOp r.x r.y,
     .setTextAttr (mapStyle fc s.oscreen.attrs r.style),
     .writeConsole r.chs]

/-! ## The draw loop (from `console_win.go`) -/

/-- The `for dx := 0; dx < width; dx++ SetDirty(x+dx, y, false)` loop of
the draw body (the clears commute, so the recursion peels the last
index). -/
def clearDirtyRange (cb : CellBuffer) (x y : Nat) : Nat → CellBuffer
  | 0 => cb
  | n + 1 => ((clearDirtyRange cb x y n).setDirty (x + n) y false)

/-- The tail of the draw loop body for a dirty cell: substitute a
single-width space when the glyph would overflow the right edge
(`x > w - width` over Go ints), start a new run when the accumulator is
empty, append the UTF-16 units of the primary and combining runes,
clear the emitted cells' dirty bits, and advance the column by the
rendered width. -/
structure RowSt where
  cells : CellBuffer
  runs : List Run
  wcs : List Nat
  lstyle : Style
  lx : Int
  ly : Int

def drawEmit (w y x : Nat) (style : Style) (mainc : Nat) (combc : List Nat)
    (width : Nat) (st : RowSt) : RowSt × Nat :=
  let over := (x : Int) > (w : Int) - (width : Int)
  let mainc := if over then 32 else mainc
  let combc := if over then [] else combc
  let width := if over then 1 else width
  let st := if st.wcs = [] then { st with lstyle := style, lx := (x : Int), ly := (y : Int) } else st
  let wcs := st.wcs ++ utf16EncodeRune mainc ++ utf16Encode combc
  let cells := clearDirtyRange st.cells x y width
  ({ st with wcs := wcs, cells := cells }, x + width)

/-- One iteration of the inner draw loop at column `x`: flush the
accumulated run when the cell is clean or its (defaulted) style differs
from the run's, skip clean cells, and otherwise emit the cell. -/
def drawStep (w : Nat) (defStyle : Style) (y x : Nat) (st : RowSt) : RowSt × Nat :=
  let gc := st.cells.getContent x y
  let dirty := st.cells.dirty x y
  let style := if gc.2.2.1 = StyleDefault then defStyle else gc.2.2.1
  if dirty = false ∨ style ≠ st.lstyle then
    let st1 : RowSt :=
      { st with
        runs := writeStringRun st.runs st.lx st.ly st.lstyle st.wcs
        wcs := []
        lstyle := StyleDefault }
    if dirty = false then (st1, x + 1)
    else drawEmit w y x style gc.1 gc.2.1 gc.2.2.2 st1
  else drawEmit w y x style gc.1 gc.2.1 gc.2.2.2 st

/-- The width returned by `getContent` is at least 1. -/
theorem getContent_width_pos (cb : CellBuffer) (x y : Nat) :
    1 ≤ (cb.getContent x y).2.2.2 := by
  unfold CellBuffer.getContent
  dsimp only
  split <;> omega

/-- `drawEmit` advances the column by at least one. -/
theorem drawEmit_lt_nextX (w y x : Nat) (style : Style) (mainc : Nat)
    (combc : List Nat) (width : Nat) (st : RowSt) (hw : 1 ≤ width) :
    x < (drawEmit w y x style mainc combc width st).2 := by
  unfold drawEmit
  dsimp only
  split <;> omega

/-- `drawStep` advances the column by at least one. -/
theorem drawStep_lt_nextX (w : Nat) (defStyle : Style) (y x : Nat) (st : RowSt) :
    x < (drawStep w defStyle y x st).2 := by
  have hw := getContent_width_pos st.cells x y
  unfold drawStep
  dsimp only
  split_ifs <;>
    first
      | exact drawEmit_lt_nextX _ _ _ _ _ _ _ _ hw
      | exact Nat.lt_succ_self x

/-- The inner draw loop over the columns of row `y`, starting at `x`,
with the end-of-row flush that resets the accumulator and poisons the
run style with `styleInvalid`. -/
def drawRowAux (w : Nat) (defStyle : Style) (y x : Nat) (st : RowSt) : RowSt :=
  if _hx : x < w then
    drawRowAux w defStyle y (drawStep w defStyle y x st).2 (drawStep w defStyle y x st).1
  else
    { st with
      runs := writeStringRun st.runs st.lx st.ly st.lstyle st.wcs
      wcs := []
      lstyle := styleInvalid }
termination_by w - x
decreasing_by
  have := drawStep_lt_nextX w defStyle y x st
  omega

/-- The outer draw loop over the rows. -/
def drawRowsAux (w : Nat) (defStyle : Style) (h y : Nat) (st : RowSt) : RowSt :=
  if _hy : y < h then
    drawRowsAux w defStyle h (y + 1) (drawRowAux w defStyle y 0 st)
  else st
termination_by h - y
decreasing_by omega

/-- The `draw` method: run the row loop over the whole buffer starting
from an empty accumulator with the invalid run style and position
(-1,-1), returning the updated screen (only the cells change) together
with the sequence of `writeString` runs. -/
def drawM (s : CScreen) : CScreen × List Run :=
  let st := drawRowsAux s.w.toNat s.style s.h.toNat 0
    ⟨s.cells, [], [], styleInvalid, -1, -1⟩
  ({ s with cells := st.cells }, st.runs)

/-! ## Geometry, rendering entry points and lifecycle (from
`console_win.go`) -/

/-- The `resize` method: read the current viewport from the console
(`conInfo` models the reply); if the dimensions are unchanged, no-op;
otherwise resize the cell buffer, update W/H, set the backing buffer
size and window rectangle, and best-effort post a resize event to the
depth-10 queue (dropped when full). -/
def resizeM (s : CScreen) : CScreen × List COp :=
  let w : Int := (s.conInfo.win.right - s.conInfo.win.left) + 1
  let h : Int := (s.conInfo.win.bottom - s.conInfo.win.top) + 1
  if s.w = w ∧ s.h = h then (s, [])
  else
    let s1 : CScreen := { s with cells := s.cells.resize w.toNat h.toNat, w := w, h := h }
    let s2 : CScreen :=
      if s1.eventQ.length < 10 then { s1 with eventQ := s1.eventQ ++ [Event.resize w h] }
      else s1
    (s2, [.setBufferSizeOp w h, .setWindowInfoOp ⟨0, 0, w - 1, h - 1⟩])

/-- The `Show` method: unless finalized, hide the cursor, reconcile the
viewport, draw, and restore the cursor. -/
def showM (fc : Color → List Color → Color) (s : CScreen) : CScreen × List COp :=
  if s.fini = false then
    let o1 := hideCursorOps s
    let (s1, o2) := resizeM s
    let (s2, runs) := drawM s1
    let o3 := (runs.map (renderRun fc s2)).flatten
    (s2, o1 ++ o2 ++ o3 ++ doCursorOps s2)
  else (s, [])

/-- The `Sync` method: unless finalized, invalidate every cell, then
hide the cursor, reconcile the viewport, draw, and restore the
cursor. -/
def syncM (fc : Color → List Color → Color) (s : CScreen) : CScreen × List COp :=
  if s.fini = false then
    let s0 : CScreen := { s with cells := s.cells.invalidate }
    let o1 := hideCursorOps s0
    let (s1, o2) := resizeM s0
    let (s2, runs) := drawM s1
    let o3 := (runs.map (renderRun fc s2)).flatten
    (s2, o1 ++ o2 ++ o3 ++ doCursorOps s2)
  else (s, [])

/-- The `SetSize(w, h)` method.  `xy` is the packed COORD returned by
`GetLargestConsoleWindowSize` (`y := xy >> 16`, `x := xy & 0xffff`).
A zero dimension or a width of 500 or more (the Windows Terminal
heuristic) makes the call a no-op; otherwise the buffer is set to the
largest size `(x, y)`, the window rectangle to the requested `w×h`, and
`resize` resettles. -/
def setSizeM (s : CScreen) (w h : Int) (xy : Nat) : CScreen × List COp :=
  let y : Int := (xy >>> 16 : Nat)
  let x : Int := (xy &&& 0xffff : Nat)
  if x = 0 ∨ y = 0 then (s, [])
  else if x ≥ 500 then (s, [])
  else
    let (s1, ops3) := resizeM s
    (s1, [.setBufferSizeOp x y, .setWindowInfoOp ⟨0, 0, w - 1, h - 1⟩] ++ ops3)

/-- The `clearScreen(style, vtEnable)` method: under VT, the style
escape, a row of spaces per line with positioning, and a final home;
legacy fills attributes and characters for the whole buffer. -/
def clearScreenOps (fc : Color → List Color → Color) (s : CScreen)
    (style : Style) (vtEnable : Bool) : List COp :=
  if vtEnable then
    [.vtEmit (makeVtStyle style)]
    ++ ((List.range s.h.toNat).map fun y =>
          setCursorPosOps 0 (y : Int) vtEnable
            ++ [.vtEmit (String.mk (List.replicate s.w.toNat (' ' : Char)))]).flatten
    ++ setCursorPosOps 0 0 vtEnable
  else
    [.fillAttr (mapStyle fc s.oscreen.attrs style) (s.w * s.h).toNat,
     .fillChar 32 (s.w * s.h).toNat]

/-- The `disengage` method: a no-op when not running; otherwise stop the
scanner (cancel event, stop channel), restore the VT state or clear the
legacy screen, and restore the captured cursor, buffer size, modes and
text attribute. -/
def disengageM (fc : Color → List Color → Color) (s : CScreen) : CScreen × List COp :=
  if s.running = false then (s, [])
  else
    let s1 : CScreen := { s with running := false, stopQClosed := true }
    let ops2 : List COp :=
      if s.vten then
        [.vtEmit ((vtCursorStyles cursorStyleDefault).getD ""),
         .vtEmit vtCursorColorReset, .vtEmit vtEnableAm]
        ++ (if s.disableAlt = false then [.vtEmit vtRestoreTitle, .vtEmit vtExitCA] else [])
      else if s.disableAlt = false then
        clearScreenOps fc s StyleDefault s.vten ++ setCursorPosOps 0 0 false
      else []
    (s1, [COp.setEventOp] ++ ops2
      ++ [.setCursorInfoOp s.ocursor.size s.ocursor.visible,
          .setBufferSizeOp s.oscreen.size.x s.oscreen.size.y,
          .setInModeOp s.oimode, .setOutModeOp s.oomode,
          .setTextAttr (mapStyle fc s.oscreen.attrs StyleDefault)])

/-- The `Fini` method: a `sync.Once`-guarded close of the quit channel
followed by `disengage`.  Note that no assignment to the `fini` field
appears anywhere in `Fini` or `disengage`. -/
def finiM (fc : Color → List Color → Color) (s : CScreen) : CScreen × List COp :=
  if s.finiDone then (s, [])
  else disengageM fc { s with finiDone := true, quitClosed := true }

/-- A fresh cell buffer of the given dimensions (all cells zero), as a
concrete instance for witnesses. -/
def freshCells (w h : Nat) : CellBuffer := ⟨w, h, fun _ => Cell.zero⟩

/-- A concrete console-info reply: an 80×24 window, captured attribute
word `0x07`, largest supportable window 200×100. -/
def sampleInfo : ConsoleInfo := ⟨⟨80, 24⟩, ⟨0, 0⟩, 0x07, ⟨0, 0, 79, 23⟩, ⟨200, 100⟩⟩

/-- A concrete running legacy-path screen for witnesses: 80×24, cursor
hidden, default style. -/
def sampleScreen : CScreen where
  curx := -1
  cury := -1
  style := StyleDefault
  fini := false
  vten := false
  truecolor := false
  running := true
  disableAlt := false
  title := ""
  w := 80
  h := 24
  oscreen := sampleInfo
  ocursor := ⟨25, 1⟩
  cursorStyle := cursorStyleDefault
  cursorColor := Color.default
  oimode := 0
  oomode := 0
  cells := freshCells 80 24
  focusEnable := false
  mouseEnabled := false
  quitClosed := false
  stopQClosed := false
  finiDone := false
  eventQ := []
  conInfo := sampleInfo

/-! ## Lifecycle and geometry theorems -/

/-- C10: `SetCursor` with a cursor style outside the seven known styles
is a complete no-op: the state (including stored cursor style and
color) is unchanged and nothing is emitted. -/
theorem setCursor_unknown_style_noop (s : CScreen) (cs : Nat) (cc : Color)
    (h : vtCursorStyles cs = none) :
    setCursorM s cs cc = (s, []) := by
  unfold setCursorM
  rw [h]
  split <;> rfl

/-- Witness for `setCursor_unknown_style_noop`: style value 7 (one past
`CursorStyleSteadyBar`) with a red cursor color on the sample screen. -/
theorem setCursor_unknown_style_noop_witness :
    setCursorM sampleScreen 7 (Color.rgb 255 0 0) = (sampleScreen, []) :=
  setCursor_unknown_style_noop sampleScreen 7 (Color.rgb 255 0 0) (by decide)

/-- `Fini` (and the `disengage` it calls) never assigns the `fini`
guard flag. -/
theorem finiM_fini (fc : Color → List Color → Color) (s : CScreen) :
    (finiM fc s).1.fini = s.fini := by
  unfold finiM disengageM
  split
  · rfl
  · split <;> rfl

/-- `hideCursor` always performs at least one console operation. -/
theorem hideCursorOps_ne_nil (s : CScreen) : hideCursorOps s ≠ [] := by
  unfold hideCursorOps
  split <;> simp

/-- On a screen whose `fini` flag is false, `Show` performs console
operations (at the very least it hides the cursor). -/
theorem showM_output_ne_nil (fc : Color → List Color → Color) (s : CScreen)
    (hf : s.fini = false) : (showM fc s).2 ≠ [] := by
  unfold showM
  rcases hr : resizeM s with ⟨s1, o2⟩
  rcases hd : drawM s1 with ⟨s2, runs⟩
  simp only [hf, hr, hd, if_true, ite_true]
  have h1 := hideCursorOps_ne_nil s
  cases he : hideCursorOps s with
  | nil => exact absurd he h1
  | cons a l => simp [he]

/-- C1 (evaluated at the failing behavior): the claim says the `fini`
guard flag is true after `Fini()` so that `Show`, `Sync`, `ShowCursor`
and `SetCursor` become no-ops; in the code no assignment ever sets the
flag, so after `Fini` the flag is still false, `Show` still draws
(non-empty console output), and `ShowCursor` still moves the stored
cursor position. -/
theorem fini_flag_never_set (fc : Color → List Color → Color) (s : CScreen)
    (hf : s.fini = false) :
    (finiM fc s).1.fini = false
    ∧ (showM fc (finiM fc s).1).2 ≠ []
    ∧ ∀ x y : Int, (showCursorM (finiM fc s).1 x y).1.curx = x
        ∧ (showCursorM (finiM fc s).1 x y).1.cury = y := by
  have h1 : (finiM fc s).1.fini = false := (finiM_fini fc s).trans hf
  refine ⟨h1, showM_output_ne_nil fc _ h1, ?_⟩
  intro x y
  unfold showCursorM
  constructor <;> simp [h1]

/-- Witness for `fini_flag_never_set`: the sample screen, with the
cursor moved to (3, 4) after `Fini`. -/
theorem fini_flag_never_set_witness :
    (finiM fcSample sampleScreen).1.fini = false
    ∧ (showM fcSample (finiM fcSample sampleScreen).1).2 ≠ []
    ∧ (showCursorM (finiM fcSample sampleScreen).1 3 4).1.curx = 3
    ∧ (showCursorM (finiM fcSample sampleScreen).1 3 4).1.cury = 4 :=
  ⟨(fini_flag_never_set fcSample sampleScreen rfl).1,
   (fini_flag_never_set fcSample sampleScreen rfl).2.1,
   (fini_flag_never_set fcSample sampleScreen rfl).2.2 3 4⟩

/-- Counterexample to C2: with the largest supportable window reported
as 200×100 (neither dimension above 500), `SetSize(80, 24)` sets the
screen buffer to 200×100 — the largest size, not the requested one —
and never issues a buffer-size call for the requested 80×24; only the
window rectangle uses the requested dimensions. -/
theorem setSize_buffer_not_requested :
    (setSizeM sampleScreen 80 24 (200 + 100 * 65536)).2
      = [.setBufferSizeOp 200 100, .setWindowInfoOp ⟨0, 0, 79, 23⟩]
    ∧ COp.setBufferSizeOp 80 24 ∉ (setSizeM sampleScreen 80 24 (200 + 100 * 65536)).2 := by
  constructor <;> decide

/-- C2 (amended): `SetSize(w,h)` is a no-op when the largest
supportable window has a zero dimension or a width of 500 or more (the
height is not consulted by the heuristic); otherwise it sets the screen
buffer to the largest supportable size `(x, y)`, sets the window
rectangle to the requested `w×h`, and then resettles via `resize`. -/
theorem setSizeM_amended (s : CScreen) (w h : Int) (xy : Nat) :
    ((xy &&& 0xffff = 0 ∨ xy >>> 16 = 0) → setSizeM s w h xy = (s, []))
    ∧ (500 ≤ xy &&& 0xffff → setSizeM s w h xy = (s, []))
    ∧ (¬(xy &&& 0xffff = 0) → ¬(xy >>> 16 = 0) → xy &&& 0xffff < 500 →
        setSizeM s w h xy
          = ((resizeM s).1,
             [.setBufferSizeOp ((xy &&& 0xffff : Nat) : Int) ((xy >>> 16 : Nat) : Int),
              .setWindowInfoOp ⟨0, 0, w - 1, h - 1⟩] ++ (resizeM s).2)) := by
  unfold setSizeM
  refine ⟨?_, ?_, ?_⟩
  · intro hz
    have hz' : ((xy &&& 0xffff : Nat) : Int) = 0 ∨ ((xy >>> 16 : Nat) : Int) = 0 := by
      rcases hz with hz | hz
      · exact Or.inl (by exact_mod_cast hz)
      · exact Or.inr (by exact_mod_cast hz)
    rw [if_pos hz']
  · intro h5
    by_cases hz : ((xy &&& 0xffff : Nat) : Int) = 0 ∨ ((xy >>> 16 : Nat) : Int) = 0
    · rw [if_pos hz]
    · rw [if_neg hz, if_pos (by exact_mod_cast h5)]
  · intro h1 h2 h3
    have hz : ¬(((xy &&& 0xffff : Nat) : Int) = 0 ∨ ((xy >>> 16 : Nat) : Int) = 0) := by
      push_neg
      exact ⟨by exact_mod_cast h1, by exact_mod_cast h2⟩
    have h5 : ¬(((xy &&& 0xffff : Nat) : Int) ≥ 500) := by
      rw [not_le]
      exact_mod_cast h3
    rw [if_neg hz, if_neg h5]

/-- Witness for `setSizeM_amended`: a zero-width reply, a 600-wide
reply, and the 200×100 reply on the sample screen. -/
theorem setSizeM_amended_witness :
    setSizeM sampleScreen 80 24 0 = (sampleScreen, [])
    ∧ setSizeM sampleScreen 80 24 (600 + 100 * 65536) = (sampleScreen, [])
    ∧ setSizeM sampleScreen 80 24 (200 + 100 * 65536)
        = ((resizeM sampleScreen).1,
           [.setBufferSizeOp ((((200 + 100 * 65536) &&& 0xffff : Nat)) : Int)
              ((((200 + 100 * 65536) >>> 16 : Nat)) : Int),
            .setWindowInfoOp ⟨0, 0, 79, 23⟩] ++ (resizeM sampleScreen).2) :=
  ⟨(setSizeM_amended sampleScreen 80 24 0).1 (Or.inl (by decide)),
   (setSizeM_amended sampleScreen 80 24 (600 + 100 * 65536)).2.1 (by decide),
   (setSizeM_amended sampleScreen 80 24 (200 + 100 * 65536)).2.2
     (by decide) (by decide) (by decide)⟩

/-! ## Cell-buffer lemmas -/

namespace CellBuffer

/-- Setting a dirty bit does not change the buffer dimensions. -/
theorem setDirty_w (cb : CellBuffer) (x y : Nat) (v : Bool) :
    (cb.setDirty x y v).w = cb.w := by
  unfold setDirty
  split <;> rfl

/-- Setting a dirty bit does not change the buffer dimensions. -/
theorem setDirty_h (cb : CellBuffer) (x y : Nat) (v : Bool) :
    (cb.setDirty x y v).h = cb.h := by
  unfold setDirty
  split <;> rfl

/-- A cell of a buffer after `setDirty` is either the old cell or the
old cell with its dirty bit overwritten. -/
theorem getCell_setDirty (cb : CellBuffer) (a b : Nat) (v : Bool) (p q : Nat) :
    (cb.setDirty a b v).getCell p q = cb.getCell p q
    ∨ (cb.setDirty a b v).getCell p q = { cb.getCell p q with dirty := v } := by
  by_cases hab : a < cb.w ∧ b < cb.h
  · by_cases hpq : p < cb.w ∧ q < cb.h
    · by_cases hi : q * cb.w + p = b * cb.w + a
      · right
        simp [setDirty, getCell, hab, hpq, hi]
      · left
        simp [setDirty, getCell, hab, hpq, hi]
    · left
      simp [setDirty, getCell, hab, hpq]
  · left
    simp [setDirty, getCell, hab]

/-- `SetDirty(x, y, false)` leaves the addressed position clean (also
when it is out of range, where `dirty` reads false anyway). -/
theorem dirty_setDirty_self (cb : CellBuffer) (x y : Nat) :
    (cb.setDirty x y false).dirty x y = false := by
  by_cases hxy : x < cb.w ∧ y < cb.h
  · simp [setDirty, dirty, getCell, hxy]
  · simp [setDirty, dirty, getCell, hxy, Cell.zero]

/-- `SetDirty(·, ·, false)` never makes a clean position dirty. -/
theorem dirty_setDirty_false (cb : CellBuffer) (a b p q : Nat)
    (h : cb.dirty p q = false) :
    (cb.setDirty a b false).dirty p q = false := by
  unfold dirty at h ⊢
  rcases getCell_setDirty cb a b false p q with hc | hc
  · rw [hc]
    exact h
  · rw [hc]

/-- The content fields read back through `getContent` are untouched by
`setDirty` (only the dirty bit may change). -/
theorem getContent_setDirty (cb : CellBuffer) (a b : Nat) (v : Bool) (p q : Nat) :
    ((cb.setDirty a b v).getContent p q).1 = (cb.getContent p q).1
    ∧ ((cb.setDirty a b v).getContent p q).2.1 = (cb.getContent p q).2.1
    ∧ ((cb.setDirty a b v).getContent p q).2.2.1 = (cb.getContent p q).2.2.1
    ∧ ((cb.setDirty a b v).getContent p q).2.2.2 = (cb.getContent p q).2.2.2 := by
  rcases getCell_setDirty cb a b v p q with hc | hc <;>
    simp [getContent, hc]

end CellBuffer

/-- `clearDirtyRange` never makes a clean position dirty. -/
theorem clearDirtyRange_dirty_false (cb : CellBuffer) (x y : Nat) (n : Nat)
    (p q : Nat) (h : cb.dirty p q = false) :
    (clearDirtyRange cb x y n).dirty p q = false := by
  induction n with
  | zero => exact h
  | succ n ih =>
    exact CellBuffer.dirty_setDirty_false _ _ _ _ _ ih

/-- `clearDirtyRange` leaves every covered position clean. -/
theorem clearDirtyRange_clears (cb : CellBuffer) (x y : Nat) (n : Nat)
    (d : Nat) (hd : d < n) :
    (clearDirtyRange cb x y n).dirty (x + d) y = false := by
  induction n with
  | zero => omega
  | succ n ih =>
    rcases Nat.lt_succ_iff_lt_or_eq.mp hd with h | h
    · exact CellBuffer.dirty_setDirty_false _ _ _ _ _ (ih h)
    · subst h
      exact CellBuffer.dirty_setDirty_self _ _ _

/-- In the overflow case (`x > w - width` over Go ints), `drawEmit`
renders a single-width space: it advances one column, appends exactly
the code unit 32 with no combining units, and only clears the cell's
dirty bit. -/
theorem drawEmit_overflow_fields (w y x : Nat) (style : Style) (mainc : Nat)
    (combc : List Nat) (width : Nat) (st : RowSt)
    (hover : (x : Int) > (w : Int) - (width : Int)) :
    (drawEmit w y x style mainc combc width st).2 = x + 1
    ∧ (drawEmit w y x style mainc combc width st).1.cells
        = st.cells.setDirty x y false
    ∧ (drawEmit w y x style mainc combc width st).1.wcs = st.wcs ++ [32] := by
  have h32 : utf16EncodeRune 32 = [32] := by decide
  unfold drawEmit
  dsimp only
  simp only [eq_true hover, if_true, ite_true]
  refine ⟨trivial, ?_, ?_⟩
  · split <;> simp [clearDirtyRange]
  · split <;> simp [h32, utf16Encode]

/-- C7: when the draw loop reaches a dirty cell at column `x` whose
width overflows the right edge (`x + width > w`), it advances a single
column, emits exactly one space code unit (32) and no combining units
into the run accumulator, and the stored cell keeps its primary rune,
combining sequence, style and width — only its dirty bit is cleared. -/
theorem draw_wide_overflow (w : Nat) (defStyle : Style) (y x : Nat) (st : RowSt)
    (hd : st.cells.dirty x y = true)
    (hover : (w : Int) < (x : Int) + ((st.cells.getContent x y).2.2.2 : Int)) :
    (drawStep w defStyle y x st).2 = x + 1
    ∧ (drawStep w defStyle y x st).1.cells = st.cells.setDirty x y false
    ∧ ((drawStep w defStyle y x st).1.wcs = st.wcs ++ [32]
        ∨ (drawStep w defStyle y x st).1.wcs = [32])
    ∧ ∀ p q : Nat,
        ((drawStep w defStyle y x st).1.cells.getContent p q).1
            = (st.cells.getContent p q).1
        ∧ ((drawStep w defStyle y x st).1.cells.getContent p q).2.1
            = (st.cells.getContent p q).2.1
        ∧ ((drawStep w defStyle y x st).1.cells.getContent p q).2.2.1
            = (st.cells.getContent p q).2.2.1
        ∧ ((drawStep w defStyle y x st).1.cells.getContent p q).2.2.2
            = (st.cells.getContent p q).2.2.2 := by
  have hover' : (x : Int) > (w : Int) - ((st.cells.getContent x y).2.2.2 : Int) := by
    omega
  have hcond : (st.cells.dirty x y = false) = False := by simp [hd]
  have hmain : (drawStep w defStyle y x st).2 = x + 1
      ∧ (drawStep w defStyle y x st).1.cells = st.cells.setDirty x y false
      ∧ ((drawStep w defStyle y x st).1.wcs = st.wcs ++ [32]
          ∨ (drawStep w defStyle y x st).1.wcs = [32]) := by
    unfold drawStep
    dsimp only
    by_cases hst : (if (st.cells.getContent x y).2.2.1 = StyleDefault then defStyle
        else (st.cells.getContent x y).2.2.1) ≠ st.lstyle
    · rw [if_pos (Or.inr hst), if_neg (by simp [hd])]
      have h := drawEmit_overflow_fields w y x
        (if (st.cells.getContent x y).2.2.1 = StyleDefault then defStyle
          else (st.cells.getContent x y).2.2.1)
        (st.cells.getContent x y).1 (st.cells.getContent x y).2.1
        (st.cells.getContent x y).2.2.2
        { st with
          runs := writeStringRun st.runs st.lx st.ly st.lstyle st.wcs
          wcs := []
          lstyle := StyleDefault } hover'
      exact ⟨h.1, h.2.1, Or.inr (by simpa using h.2.2)⟩
    · rw [if_neg (by rw [not_or]; exact ⟨by simp [hd], hst⟩)]
      have h := drawEmit_overflow_fields w y x
        (if (st.cells.getContent x y).2.2.1 = StyleDefault then defStyle
          else (st.cells.getContent x y).2.2.1)
        (st.cells.getContent x y).1 (st.cells.getContent x y).2.1
        (st.cells.getContent x y).2.2.2 st hover'
      exact ⟨h.1, h.2.1, Or.inl h.2.2⟩
  refine ⟨hmain.1, hmain.2.1, hmain.2.2, ?_⟩
  intro p q
  rw [hmain.2.1]
  exact CellBuffer.getContent_setDirty st.cells x y false p q

/-- A 4×1 buffer with a dirty width-2 CJK rune at column 3 (the right
edge), for exercising the overflow substitution. -/
def wideEdgeCells : CellBuffer :=
  ⟨4, 1, fun i =>
    if i = 3 then ⟨0x4e2d, [], StyleDefault, 2, true⟩ else Cell.zero⟩

/-- A row state over `wideEdgeCells` as the draw loop starts. -/
def wideEdgeRow : RowSt := ⟨wideEdgeCells, [], [], styleInvalid, -1, -1⟩

/-- Witness for `draw_wide_overflow`: the dirty width-2 cell at column
3 of the 4-column buffer is rendered as a single space and its stored
content survives. -/
theorem draw_wide_overflow_witness :
    (drawStep 4 StyleDefault 0 3 wideEdgeRow).2 = 3 + 1
    ∧ (drawStep 4 StyleDefault 0 3 wideEdgeRow).1.cells
        = wideEdgeRow.cells.setDirty 3 0 false
    ∧ ((drawStep 4 StyleDefault 0 3 wideEdgeRow).1.wcs = wideEdgeRow.wcs ++ [32]
        ∨ (drawStep 4 StyleDefault 0 3 wideEdgeRow).1.wcs = [32])
    ∧ (((drawStep 4 StyleDefault 0 3 wideEdgeRow).1.cells.getContent 3 0).1
          = (wideEdgeRow.cells.getContent 3 0).1
        ∧ ((drawStep 4 StyleDefault 0 3 wideEdgeRow).1.cells.getContent 3 0).2.1
          = (wideEdgeRow.cells.getContent 3 0).2.1
        ∧ ((drawStep 4 StyleDefault 0 3 wideEdgeRow).1.cells.getContent 3 0).2.2.1
          = (wideEdgeRow.cells.getContent 3 0).2.2.1
        ∧ ((drawStep 4 StyleDefault 0 3 wideEdgeRow).1.cells.getContent 3 0).2.2.2
          = (wideEdgeRow.cells.getContent 3 0).2.2.2) :=
  ⟨(draw_wide_overflow 4 StyleDefault 0 3 wideEdgeRow (by decide) (by decide)).1,
   (draw_wide_overflow 4 StyleDefault 0 3 wideEdgeRow (by decide) (by decide)).2.1,
   (draw_wide_overflow 4 StyleDefault 0 3 wideEdgeRow (by decide) (by decide)).2.2.1,
   (draw_wide_overflow 4 StyleDefault 0 3 wideEdgeRow (by decide) (by decide)).2.2.2 3 0⟩

/-! ## Draw-loop invariants: the loop never re-dirties a cell, and it
clears every position it covers -/

/-- `drawEmit` never makes a clean position dirty. -/
theorem drawEmit_preserves_clean (w y x : Nat) (style : Style) (mainc : Nat)
    (combc : List Nat) (width : Nat) (st : RowSt) (p q : Nat)
    (h : st.cells.dirty p q = false) :
    ((drawEmit w y x style mainc combc width st).1.cells).dirty p q = false := by
  unfold drawEmit
  dsimp only
  split <;> split <;> exact clearDirtyRange_dirty_false _ _ _ _ _ _ h

/-- `drawStep` never makes a clean position dirty. -/
theorem drawStep_preserves_clean (w : Nat) (defS : Style) (y x : Nat) (st : RowSt)
    (p q : Nat) (h : st.cells.dirty p q = false) :
    ((drawStep w defS y x st).1.cells).dirty p q = false := by
  unfold drawStep
  dsimp only
  split_ifs <;>
    first
      | exact h
      | exact drawEmit_preserves_clean _ _ _ _ _ _ _ _ _ _ h

/-- The inner row loop never makes a clean position dirty. -/
theorem drawRowAux_preserves_clean (w : Nat) (defS : Style) (y : Nat) :
    ∀ x st, ∀ p q : Nat, st.cells.dirty p q = false →
      ((drawRowAux w defS y x st).cells).dirty p q = false := by
  intro x st
  induction x, st using drawRowAux.induct w defS y with
  | case1 x st hx ih =>
    intro p q h
    rw [drawRowAux, dif_pos hx]
    exact ih p q (drawStep_preserves_clean w defS y x st p q h)
  | case2 x st hx =>
    intro p q h
    rw [drawRowAux, dif_neg hx]
    exact h

/-- The outer row loop never makes a clean position dirty. -/
theorem drawRowsAux_preserves_clean (w : Nat) (defS : Style) (hh : Nat) :
    ∀ y st, ∀ p q : Nat, st.cells.dirty p q = false →
      ((drawRowsAux w defS hh y st).cells).dirty p q = false := by
  intro y st
  induction y, st using drawRowsAux.induct w defS hh with
  | case1 y st hy ih =>
    intro p q h
    rw [drawRowsAux, dif_pos hy]
    exact ih p q (drawRowAux_preserves_clean w defS y 0 st p q h)
  | case2 y st hy =>
    intro p q h
    rw [drawRowsAux, dif_neg hy]
    exact h

/-- Every column that `drawEmit` steps over comes out clean. -/
theorem drawEmit_clears (w y x : Nat) (style : Style) (mainc : Nat)
    (combc : List Nat) (width : Nat) (st : RowSt) (cx : Nat) (hle : x ≤ cx)
    (hlt : cx < (drawEmit w y x style mainc combc width st).2) :
    ((drawEmit w y x style mainc combc width st).1.cells).dirty cx y = false := by
  have hcells : (if st.wcs = [] then
      { st with lstyle := style, lx := (x : Int), ly := (y : Int) } else st).cells
      = st.cells := by split <;> rfl
  unfold drawEmit at hlt ⊢
  dsimp only at hlt ⊢
  rw [hcells]
  by_cases hov : (x : Int) > (w : Int) - (width : Int)
  · simp only [eq_true hov, if_true, ite_true] at hlt ⊢
    have hcx : cx = x := by omega
    subst hcx
    have := clearDirtyRange_clears st.cells cx y 1 0 (by omega)
    simpa using this
  · simp only [hov, if_false, ite_false] at hlt ⊢
    have hdlt : cx - x < width := by omega
    have := clearDirtyRange_clears st.cells x y width (cx - x) hdlt
    rwa [Nat.add_sub_cancel' hle] at this

/-- Every column that `drawStep` steps over comes out clean. -/
theorem drawStep_clears (w : Nat) (defS : Style) (y x : Nat) (st : RowSt)
    (cx : Nat) (hle : x ≤ cx) (hlt : cx < (drawStep w defS y x st).2) :
    ((drawStep w defS y x st).1.cells).dirty cx y = false := by
  unfold drawStep at hlt ⊢
  dsimp only at hlt ⊢
  split_ifs at hlt ⊢ <;>
    first
      | exact drawEmit_clears _ _ _ _ _ _ _ _ _ hle hlt
      | (have hlt' : cx < x + 1 := hlt
         have hcx : cx = x := by omega
         subst hcx
         assumption)

/-- After running the inner row loop from column `x`, every column of
that row from `x` to the right edge is clean. -/
theorem drawRowAux_clears (w : Nat) (defS : Style) (y : Nat) :
    ∀ x st, ∀ cx : Nat, x ≤ cx → cx < w →
      ((drawRowAux w defS y x st).cells).dirty cx y = false := by
  intro x st
  induction x, st using drawRowAux.induct w defS y with
  | case1 x st hx ih =>
    intro cx hle hlt
    rw [drawRowAux, dif_pos hx]
    by_cases hnx : (drawStep w defS y x st).2 ≤ cx
    · exact ih cx hnx hlt
    · exact drawRowAux_preserves_clean w defS y _ _ cx y
        (drawStep_clears w defS y x st cx hle (by omega))
  | case2 x st hx =>
    intro cx hle hlt
    omega

/-- After running the outer row loop from row `y`, every cell of rows
`y` and below (within the `w × h` grid) is clean. -/
theorem drawRowsAux_clears (w : Nat) (defS : Style) (hh : Nat) :
    ∀ y st, ∀ cy cx : Nat, y ≤ cy → cy < hh → cx < w →
      ((drawRowsAux w defS hh y st).cells).dirty cx cy = false := by
  intro y st
  induction y, st using drawRowsAux.induct w defS hh with
  | case1 y st hy ih =>
    intro cy cx hle hcy hcx
    rw [drawRowsAux, dif_pos hy]
    by_cases hny : y + 1 ≤ cy
    · exact ih cy cx hny hcy hcx
    · have hcyy : cy = y := by omega
      subst hcyy
      exact drawRowsAux_preserves_clean w defS hh _ _ cx cy
        (drawRowAux_clears w defS cy 0 st cx (Nat.zero_le _) hcx)
  | case2 y st hy =>
    intro cy cx hle hcy hcx
    omega

/-- After `draw`, every cell within the screen's `w × h` grid is
clean. -/
theorem drawM_clears (s : CScreen) (cx cy : Nat)
    (hx : cx < s.w.toNat) (hy : cy < s.h.toNat) :
    ((drawM s).1.cells).dirty cx cy = false := by
  unfold drawM
  dsimp only
  exact drawRowsAux_clears s.w.toNat s.style s.h.toNat 0 _ cy cx
    (Nat.zero_le _) hy hx

/-- Two cells equal up to dirty bits become equal outright once the
dirty bit is overwritten. -/
theorem Cell.update_dirty_eq (a b : Cell) (d : Bool)
    (h : CellBuffer.stripDirty a = CellBuffer.stripDirty b) :
    ({ a with dirty := d } : Cell) = { b with dirty := d } := by
  cases a
  cases b
  simp [CellBuffer.stripDirty] at h
  simp [h.1, h.2.1, h.2.2.1, h.2.2.2]

/-- Buffers that agree except on dirty bits have the same
invalidation. -/
theorem CellBuffer.invalidate_contentEq (cb₁ cb₂ : CellBuffer)
    (h : CellBuffer.contentEq cb₁ cb₂) :
    cb₁.invalidate = cb₂.invalidate := by
  rcases cb₁ with ⟨w₁, h₁, f₁⟩
  rcases cb₂ with ⟨w₂, h₂, f₂⟩
  rcases h with ⟨hw, hh, hc⟩
  simp only at hw hh
  subst hw hh
  unfold CellBuffer.invalidate
  simp only [CellBuffer.mk.injEq, true_and]
  funext i
  exact Cell.update_dirty_eq _ _ true (hc i)

/-- C3: `Sync()` is observationally equivalent to invalidating every
cell of the buffer followed by `Show()` (same output operations, same
resulting state); its outcome does not depend on the prior dirty bits
at all; and afterwards every cell of the (possibly resized) grid has
been processed by the renderer — all dirty bits are clear. -/
theorem sync_is_invalidate_then_show (fc : Color → List Color → Color)
    (s : CScreen) (hf : s.fini = false) :
    syncM fc s = showM fc { s with cells := s.cells.invalidate }
    ∧ (∀ cb₂ : CellBuffer, CellBuffer.contentEq s.cells cb₂ →
        syncM fc { s with cells := cb₂ } = syncM fc s)
    ∧ (∀ cx cy : Nat, cx < (syncM fc s).1.w.toNat → cy < (syncM fc s).1.h.toNat →
        ((syncM fc s).1.cells).dirty cx cy = false) := by
  have hf' : ({ s with cells := s.cells.invalidate } : CScreen).fini = false := hf
  refine ⟨?_, ?_, ?_⟩
  · unfold syncM showM
    rw [if_pos hf, if_pos hf']
  · intro cb₂ hc
    have hf₂ : ({ s with cells := cb₂ } : CScreen).fini = false := hf
    have hinv : cb₂.invalidate = s.cells.invalidate :=
      CellBuffer.invalidate_contentEq cb₂ s.cells
        ⟨hc.1.symm, hc.2.1.symm, fun i => (hc.2.2 i).symm⟩
    unfold syncM
    rw [if_pos hf₂, if_pos hf]
    rw [show ({ s with cells := cb₂ } : CScreen).cells.invalidate
          = s.cells.invalidate from hinv]
  · intro cx cy hx hy
    have hs : (syncM fc s).1
        = (drawM (resizeM { s with cells := s.cells.invalidate }).1).1 := by
      unfold syncM
      rw [if_pos hf]
    rw [hs] at hx hy ⊢
    exact drawM_clears _ cx cy hx hy

/-- Witness for `sync_is_invalidate_then_show` on the sample screen:
the equivalence, dirty-bit independence against the buffer itself, and
cleanliness of cell (0,0). -/
theorem sync_is_invalidate_then_show_witness :
    syncM fcSample sampleScreen
      = showM fcSample { sampleScreen with cells := sampleScreen.cells.invalidate }
    ∧ syncM fcSample { sampleScreen with cells := sampleScreen.cells }
        = syncM fcSample sampleScreen
    ∧ ((syncM fcSample sampleScreen).1.cells).dirty 0 0 = false :=
  ⟨(sync_is_invalidate_then_show fcSample sampleScreen rfl).1,
   (sync_is_invalidate_then_show fcSample sampleScreen rfl).2.1
     sampleScreen.cells ⟨rfl, rfl, fun _ => rfl⟩,
   (sync_is_invalidate_then_show fcSample sampleScreen rfl).2.2 0 0
     (by decide) (by decide)⟩

end TcellWin
